import Mathlib

/-!
Verification of the A2A (agent-to-agent) core of the AI-Travel-Planner
repository: signed envelopes (src/a2a/protocol.py), the in-memory message
bus (src/a2a/adapters/in_memory.py), the keyed state store with expiry
(src/state/store.py), and the orchestration workflow
(src/workflows/dynamic_planner.py) with its monitoring callbacks
(src/callbacks/monitoring.py).

The Python code is shallowly embedded: every definition below mirrors one
Python function or class, with dictionaries as association lists, absolute
time as a Nat parameter threaded into each state-store operation, and
exceptions as Except values.
-/

/-- A Python datetime.datetime value (naive), as used for envelope
timestamps and temporal payload values.  Canonicalization only ever reads
it through isoformat. -/
structure PyDatetime where
  year : Nat
  month : Nat
  day : Nat
  hour : Nat
  minute : Nat
  second : Nat
  microsecond : Nat
deriving DecidableEq, Repr

/-- A Python datetime.date value. -/
structure PyDate where
  year : Nat
  month : Nat
  day : Nat
deriving DecidableEq, Repr

/-- Decimal digit string of a Nat, left-padded with zeros to width k
(Python %0kd formatting, as used by datetime.isoformat for its
components). -/
def padZeros (k : Nat) (n : Nat) : String :=
  let s := toString n
  String.mk (List.replicate (k - s.length) '0') ++ s

/-- Python datetime.isoformat(): YYYY-MM-DDTHH:MM:SS, with a .ffffff
suffix exactly when the microsecond component is nonzero. -/
def PyDatetime.isoformat (t : PyDatetime) : String :=
  padZeros 4 t.year ++ "-" ++ padZeros 2 t.month ++ "-" ++ padZeros 2 t.day ++ "T" ++
    padZeros 2 t.hour ++ ":" ++ padZeros 2 t.minute ++ ":" ++ padZeros 2 t.second ++
    (if t.microsecond = 0 then "" else "." ++ padZeros 6 t.microsecond)

/-- Python date.isoformat(): YYYY-MM-DD. -/
def PyDate.isoformat (d : PyDate) : String :=
  padZeros 4 d.year ++ "-" ++ padZeros 2 d.month ++ "-" ++ padZeros 2 d.day

mutual
/-- A Python runtime value as it can occur in a message payload or in the
state store.  pyfloat carries the float's repr string (Python's shortest
round-tripping decimal form), which identifies an IEEE-754 double
uniquely and is exactly what json.dumps emits for it.  pydecimal carries
the exact rational value of a decimal.Decimal (Python compares Decimals
numerically) together with the repr of float(d), the IEEE-754 double
nearest d: the canonical JSON encoder converts a Decimal via float(obj),
so this repr string is what ends up in the canonical bytes.  pyother
stands for any object the default JSON encoder rejects, tagged with its
type name. -/
inductive PValue where
  | pynull
  | pybool (b : Bool)
  | pyint (n : Int)
  | pyfloat (floatRepr : String)
  | pystr (s : String)
  | pydecimal (val : ℚ) (floatRepr : String)
  | pydatetime (dt : PyDatetime)
  | pydate (d : PyDate)
  | pylist (xs : PValueList)
  | pydict (entries : PEntryList)
  | pyother (typeName : String)

/-- A Python list of values. -/
inductive PValueList where
  | nil
  | cons (hd : PValue) (tl : PValueList)

/-- A Python dict from string keys to values, in insertion order. -/
inductive PEntryList where
  | nil
  | cons (key : String) (hd : PValue) (tl : PEntryList)
end

deriving instance DecidableEq for PValue, PValueList, PEntryList
deriving instance Repr for PValue, PValueList, PEntryList
deriving instance DecidableEq for Except

/-- Lowercase hexadecimal digit. -/
def hexDigit (n : Nat) : Char :=
  if n < 10 then Char.ofNat (48 + n) else Char.ofNat (87 + n)

/-- Four lowercase hex digits, as in a JSON \uXXXX escape. -/
def hex4 (n : Nat) : String :=
  String.mk [hexDigit (n / 4096 % 16), hexDigit (n / 256 % 16),
             hexDigit (n / 16 % 16), hexDigit (n % 16)]

/-- How json.dumps (ensure_ascii=True, the default) escapes one character
inside a JSON string: the two-character escapes for quote, backslash and
the common control characters, \uXXXX for the remaining characters
outside the printable ASCII range 0x20-0x7e, with surrogate pairs for
characters beyond the basic multilingual plane. -/
def escapeChar (c : Char) : String :=
  if c = '"' then "\\\""
  else if c = '\\' then "\\\\"
  else if c = '\n' then "\\n"
  else if c = '\t' then "\\t"
  else if c = '\r' then "\\r"
  else if c.toNat = 8 then "\\b"
  else if c.toNat = 12 then "\\f"
  else if c.toNat < 32 ∨ c.toNat > 126 then
    if c.toNat < 65536 then "\\u" ++ hex4 c.toNat
    else
      let n := c.toNat - 65536
      "\\u" ++ hex4 (55296 + n / 1024) ++ "\\u" ++ hex4 (56320 + n % 1024)
  else String.singleton c

/-- A JSON string literal for s, as json.dumps renders it. -/
def jsonQuote (s : String) : String :=
  "\"" ++ String.join (s.data.map escapeChar) ++ "\""

/-- Insert one key-value pair into a list sorted by key (String order is
code-point lexicographic, as in Python). -/
def insertSorted (p : String × String) : List (String × String) → List (String × String)
  | [] => [p]
  | q :: tl => if p.1 ≤ q.1 then p :: q :: tl else q :: insertSorted p tl

/-- Sort encoded dict entries by key, modelling sort_keys=True in
json.dumps.  (Python dict keys are unique, so stability is irrelevant.) -/
def sortByKey : List (String × String) → List (String × String)
  | [] => []
  | p :: tl => insertSorted p (sortByKey tl)

mutual
/-- json.dumps of one payload value with sort_keys=True and the
CustomEncoder of compute_hmac_signature: Decimal becomes float(obj)
(rendered by float repr), datetime/date become their isoformat strings,
and any other non-JSON type raises TypeError (modelled as Except.error
with CPython's message).  Values inside a dict are encoded independently
of the key order, so encoding entries first and sorting the encoded pairs
afterwards produces the same text as Python's sort-then-encode. -/
def encodeValue : PValue → Except String String
  | .pynull => .ok "null"
  | .pybool b => .ok (if b then "true" else "false")
  | .pyint n => .ok (toString n)
  | .pyfloat r => .ok r
  | .pystr s => .ok (jsonQuote s)
  | .pydecimal _ fr => .ok fr
  | .pydatetime dt => .ok (jsonQuote dt.isoformat)
  | .pydate d => .ok (jsonQuote d.isoformat)
  | .pylist xs =>
    match encodeList xs with
    | .error e => .error e
    | .ok parts => .ok ("[" ++ String.intercalate ", " parts ++ "]")
  | .pydict es =>
    match encodeEntries es with
    | .error e => .error e
    | .ok parts =>
      .ok ("\x7b" ++
        String.intercalate ", "
          ((sortByKey parts).map (fun p => jsonQuote p.1 ++ ": " ++ p.2)) ++ "\x7d")
  | .pyother t => .error ("Object of type " ++ t ++ " is not JSON serializable")

/-- Encode every element of a Python list. -/
def encodeList : PValueList → Except String (List String)
  | .nil => .ok []
  | .cons v tl =>
    match encodeValue v with
    | .error e => .error e
    | .ok s =>
      match encodeList tl with
      | .error e => .error e
      | .ok rest => .ok (s :: rest)

/-- Encode every entry of a Python dict, in insertion order. -/
def encodeEntries : PEntryList → Except String (List (String × String))
  | .nil => .ok []
  | .cons k v tl =>
    match encodeValue v with
    | .error e => .error e
    | .ok s =>
      match encodeEntries tl with
      | .error e => .error e
      | .ok rest => .ok ((k, s) :: rest)
end

mutual
/-- Does a value contain (at any depth) an object the default JSON
encoder cannot represent? -/
def hasUnserializable : PValue → Bool
  | .pyother _ => true
  | .pylist xs => hasUnserializableL xs
  | .pydict es => hasUnserializableE es
  | _ => false

/-- List version of hasUnserializable. -/
def hasUnserializableL : PValueList → Bool
  | .nil => false
  | .cons v tl => hasUnserializable v || hasUnserializableL tl

/-- Dict version of hasUnserializable. -/
def hasUnserializableE : PEntryList → Bool
  | .nil => false
  | .cons _ v tl => hasUnserializable v || hasUnserializableE tl
end

/-- Python truthiness of a payload/state value (bool(x)).  Objects
without special boolean protocols (datetimes, dates, opaque objects) are
truthy; a float is falsy exactly when it is a zero, whose repr is 0.0 or
-0.0. -/
def pyTruthy : PValue → Bool
  | .pynull => false
  | .pybool b => b
  | .pyint n => decide (n ≠ 0)
  | .pyfloat r => decide (r ≠ "0.0" ∧ r ≠ "-0.0")
  | .pystr s => decide (s ≠ "")
  | .pydecimal q _ => decide (q ≠ 0)
  | .pydatetime _ => true
  | .pydate _ => true
  | .pylist xs => match xs with | .nil => false | .cons _ _ => true
  | .pydict es => match es with | .nil => false | .cons _ _ _ => true
  | .pyother _ => true

/-- Truthiness of an optional value (None is falsy). -/
def pyTruthyOpt : Option PValue → Bool
  | none => false
  | some v => pyTruthy v

/-! ## Signed envelopes (src/a2a/protocol.py) -/

/-- Metadata for A2A messages (class A2AMetadata). -/
structure A2AMetadata where
  sender : String
  receiver : Option String
  priority : Int
  ttl : Int
deriving DecidableEq, Repr

/-- The A2A message envelope (class A2AMessage).  The meta field is named
meta in the source; the payload is a string-keyed dict. -/
structure A2AMessage where
  message_id : String
  trace_id : String
  correlation_id : String
  message_type : String
  version : String
  timestamp : PyDatetime
  payload : PEntryList
  meta : A2AMetadata
  signature : Option String
deriving DecidableEq, Repr

/-- JSON object for the nested meta dict produced by model_dump, with
keys in sorted order (priority, receiver, sender, ttl) as json.dumps
sort_keys=True emits them. -/
def encodeMeta (md : A2AMetadata) : String :=
  "\x7b\"priority\": " ++ toString md.priority ++
    ", \"receiver\": " ++ (match md.receiver with
                           | none => "null"
                           | some r => jsonQuote r) ++
    ", \"sender\": " ++ jsonQuote md.sender ++
    ", \"ttl\": " ++ toString md.ttl ++ "\x7d"

/-- The canonical representation built inside compute_hmac_signature:
to_dict() with the signature key popped, serialized by
json.dumps(sort_keys=True) with the CustomEncoder.  The top-level keys in
sorted order are correlation_id, message_id, message_type, meta, payload,
timestamp, trace_id, version; the timestamp has already been replaced by
its isoformat string in to_dict.  Fails (TypeError) exactly when the
payload holds a value the encoder cannot represent. -/
def canonical_message (m : A2AMessage) : Except String String :=
  match encodeValue (.pydict m.payload) with
  | .error e => .error e
  | .ok payloadStr =>
    .ok ("\x7b\"correlation_id\": " ++ jsonQuote m.correlation_id ++
      ", \"message_id\": " ++ jsonQuote m.message_id ++
      ", \"message_type\": " ++ jsonQuote m.message_type ++
      ", \"meta\": " ++ encodeMeta m.meta ++
      ", \"payload\": " ++ payloadStr ++
      ", \"timestamp\": " ++ jsonQuote m.timestamp.isoformat ++
      ", \"trace_id\": " ++ jsonQuote m.trace_id ++
      ", \"version\": " ++ jsonQuote m.version ++ "\x7d")

/-- compute_hmac_signature.  The HMAC-SHA256 hex digest itself is kept
abstract: hmac secret canonicalText stands for
hmac.new(secret, canonical, sha256).hexdigest(), a deterministic function
of the secret and the canonical bytes.  Raises (Except.error) when
canonicalization does. -/
def compute_hmac_signature (hmac : String → String → String)
    (m : A2AMessage) (secret : String) : Except String String :=
  match canonical_message m with
  | .error e => .error e
  | .ok canonical => .ok (hmac secret canonical)

/-- sign_message: computes the signature and stores it on the message. -/
def sign_message (hmac : String → String → String)
    (m : A2AMessage) (secret : String) : Except String A2AMessage :=
  match compute_hmac_signature hmac m secret with
  | .error e => .error e
  | .ok sig => .ok { m with signature := some sig }

/-- verify_message: False when the signature is absent, otherwise
recompute and compare (hmac.compare_digest is equality on the two hex
strings; constant-timeness is a non-functional property). -/
def verify_message (hmac : String → String → String)
    (m : A2AMessage) (secret : String) : Except String Bool :=
  match m.signature with
  | none => .ok false
  | some sig =>
    match compute_hmac_signature hmac m secret with
    | .error e => .error e
    | .ok expected => .ok (decide (sig = expected))

/-! ## Association-list helpers for Python dicts -/

/-- dict lookup: value of the first entry with the given key. -/
def alistGet {α : Type} : List (String × α) → String → Option α
  | [], _ => none
  | kv :: tl, k => if kv.1 = k then some kv.2 else alistGet tl k

/-- dict assignment d[k] = v: replace the first entry with the key in
place, else append a fresh entry (Python dicts keep insertion order). -/
def alistSet {α : Type} (l : List (String × α)) (k : String) (v : α) :
    List (String × α) :=
  match l with
  | [] => [(k, v)]
  | (k₀, v₀) :: tl =>
    if k₀ = k then (k, v) :: tl else (k₀, v₀) :: alistSet tl k v

/-- dict removal d.pop(k, None): drop every entry with the key (at most
one exists in a well-formed dict). -/
def alistRemove {α : Type} (l : List (String × α)) (k : String) :
    List (String × α) :=
  l.filter (fun kv => !(kv.1 == k))

/-- defaultdict(list) append: self._queues[k].append(x). -/
def alistAppend {α : Type} (l : List (String × List α)) (k : String) (x : α) :
    List (String × List α) :=
  match l with
  | [] => [(k, [x])]
  | (k₀, xs) :: tl =>
    if k₀ = k then (k₀, xs ++ [x]) :: tl else (k₀, xs) :: alistAppend tl k x

/-! ## In-memory message bus (src/a2a/adapters/in_memory.py)

Subscriber callbacks are arbitrary Python functions; the model identifies
each registered callback by an opaque Nat and reports which callbacks a
send invoked (their failures are caught and logged by the source, so they
cannot affect the bus state). -/

/-- The mutable state of InMemoryA2AAdapter: per-agent queues, per-agent
subscriber lists, the bounded history and its capacity (1000 in the
source). -/
structure BusState where
  queues : List (String × List A2AMessage)
  subscribers : List (String × List Nat)
  message_history : List A2AMessage
  max_history : Nat
deriving DecidableEq, Repr

/-- target = receiver or message.meta.receiver: Python or skips a falsy
(empty) explicit receiver string. -/
def resolveTarget (receiver : Option String) (m : A2AMessage) : Option String :=
  match receiver with
  | some s => if s = "" then m.meta.receiver else some s
  | none => m.meta.receiver

/-- send_message.  Returns (success, new state, subscriber callbacks
invoked in registration order).  With no resolvable target it returns
False having touched nothing; otherwise it appends to the target queue,
appends to the history (evicting the oldest entry when over capacity) and
notifies the target's subscribers. -/
def send_message (st : BusState) (m : A2AMessage) (receiver : Option String) :
    Bool × BusState × List Nat :=
  match resolveTarget receiver m with
  | none => (false, st, [])
  | some target =>
    let queues := alistAppend st.queues target m
    let hist := st.message_history ++ [m]
    let hist := if st.max_history < hist.length then hist.drop 1 else hist
    let invoked := (alistGet st.subscribers target).getD []
    (true, { st with queues := queues, message_history := hist }, invoked)

/-- The filtering part of get_message_history: keep messages matching a
truthy trace_id filter, then a truthy correlation_id filter (a None or
empty-string filter is skipped by Python truthiness). -/
def filterHistory (hist : List A2AMessage)
    (trace_id correlation_id : Option String) : List A2AMessage :=
  let ms := match trace_id with
    | some t => if t = "" then hist else hist.filter (fun m => m.trace_id == t)
    | none => hist
  match correlation_id with
  | some c => if c = "" then ms else ms.filter (fun m => m.correlation_id == c)
  | none => ms

/-- Python list slicing l[i:] for an arbitrary (possibly negative) start
index. -/
def pySliceFromIdx {α : Type} (l : List α) (i : Int) : List α :=
  let start : Int := if i < 0 then max 0 ((l.length : Int) + i) else i
  l.drop start.toNat

/-- get_message_history: filter the copied history by the truthy id
filters, then return messages[-limit:] (the default limit is 100). -/
def get_message_history (hist : List A2AMessage)
    (trace_id correlation_id : Option String) (limit : Int) : List A2AMessage :=
  pySliceFromIdx (filterHistory hist trace_id correlation_id) (-limit)

/-! ## Keyed state store (src/state/store.py, class InMemoryStateStore)

Wall-clock time (datetime.utcnow()) is modelled by a Nat passed to each
operation; a key's stored expiry is the absolute time at which it lapses
(set stores now + ttl). -/

/-- The store's mutable state: the value dict and the expiry dict. -/
structure StoreState where
  store : List (String × PValue)
  expiry : List (String × Nat)
deriving DecidableEq, Repr

namespace InMemoryStateStore

/-- The lazy expiry sweep performed at the top of every operation: drop
every key whose stored expiry is at or before now from both dicts. -/
def cleanup_expired (st : StoreState) (now : Nat) : StoreState :=
  let expired := (st.expiry.filter (fun kv => kv.2 ≤ now)).map Prod.fst
  { store := st.store.filter (fun kv => !(expired.contains kv.1))
    expiry := st.expiry.filter (fun kv => !(kv.2 ≤ now)) }

/-- get: sweep, then return the stored value (a stored Python None is
returned as the value None, indistinguishable to callers from absence;
the model keeps the distinction as some pynull, which is falsy like
None). -/
def get (st : StoreState) (now : Nat) (key : String) :
    Option PValue × StoreState :=
  let st := cleanup_expired st now
  (alistGet st.store key, st)

/-- set: sweep, store the value, and record now + ttl as the expiry when
a ttl is given, else drop any previous expiry for the key. -/
def set (st : StoreState) (now : Nat) (key : String) (value : PValue)
    (ttl : Option Nat) : Bool × StoreState :=
  let st := cleanup_expired st now
  let store := alistSet st.store key value
  let expiry := match ttl with
    | some t => alistSet st.expiry key (now + t)
    | none => alistRemove st.expiry key
  (true, { store := store, expiry := expiry })

/-- delete: sweep, then remove the key from both dicts when present. -/
def delete (st : StoreState) (now : Nat) (key : String) : Bool × StoreState :=
  let st := cleanup_expired st now
  if (alistGet st.store key).isSome then
    (true, { store := alistRemove st.store key, expiry := alistRemove st.expiry key })
  else
    (false, st)

/-- exists: sweep, then test key membership (the source method is named
exists, which Lean reserves). -/
def exists_key (st : StoreState) (now : Nat) (key : String) : Bool × StoreState :=
  let st := cleanup_expired st now
  ((alistGet st.store key).isSome, st)

/-- list_keys: sweep, then list keys filtered by the optional pattern
(trailing * means a leading-part match, leading * a trailing-part match,
otherwise substring; an empty pattern is falsy and ignored). -/
def list_keys (st : StoreState) (now : Nat) (pattern : Option String) :
    List String × StoreState :=
  let st := cleanup_expired st now
  let keys := st.store.map Prod.fst
  let keys := match pattern with
    | none => keys
    | some p =>
      if p = "" then keys
      else if p.endsWith "*" then
        let pre := p.dropRight 1
        keys.filter (fun k => k.startsWith pre)
      else if p.startsWith "*" then
        let suf := p.drop 1
        keys.filter (fun k => k.endsWith suf)
      else
        keys.filter (fun k => decide (p.data <:+: k.data))
  (keys, st)

/-- clear: sweep, then empty both dicts, returning how many keys the
value dict held after the sweep. -/
def clear (st : StoreState) (now : Nat) : Nat × StoreState :=
  let st := cleanup_expired st now
  (st.store.length, ⟨[], []⟩)

end InMemoryStateStore

/-! ## Task model (src/models/itinerary.py) -/

/-- TaskStatus enum. -/
inductive TaskStatus where
  | pending
  | running
  | completed
  | failed
  | cancelled
deriving DecidableEq, Repr

/-- The fields of TaskContext the orchestration logic reads. -/
structure TaskContext where
  task_id : String
  correlation_id : String
  trace_id : String
  request_params : PEntryList
  status : TaskStatus
deriving DecidableEq, Repr

/-- EventType enum (monitoring). -/
inductive EventType where
  | task_start
  | task_progress
  | task_end
  | task_error
  | state_change
  | api_call
  | agent_message
deriving DecidableEq, Repr

/-- EventSeverity enum. -/
inductive EventSeverity where
  | debug
  | info
  | warning
  | error
  | critical
deriving DecidableEq, Repr

/-- A Python exception value, reduced to what on_task_error reads from
it: type(error).__name__ and str(error). -/
structure PyExn where
  typeName : String
  message : String
deriving DecidableEq, Repr

/-- MonitoringEvent (src/models/itinerary.py): error holds the
(type, message) pair built by on_task_error. -/
structure MonitoringEvent where
  event_id : String
  event_type : EventType
  severity : EventSeverity
  trace_id : String
  correlation_id : String
  task_id : Option String
  agent_id : Option String
  message : String
  data : List (String × PValue)
  error : Option (String × String)
deriving DecidableEq, Repr

/-! ## Monitoring callbacks (src/callbacks/monitoring.py)

Each on_* method builds one MonitoringEvent (with a fresh uuid4 event id,
passed in here as event_id) and emits it to the registered listeners;
listener failures are caught and logged, so emission cannot fail. -/

/-- on_task_start: severity info, data defaulting to the empty dict. -/
def on_task_start (trace_id correlation_id event_id task_id : String)
    (agent_id : Option String) (message : String)
    (data : Option (List (String × PValue))) : MonitoringEvent :=
  { event_id := event_id, event_type := .task_start, severity := .info,
    trace_id := trace_id, correlation_id := correlation_id,
    task_id := some task_id, agent_id := agent_id, message := message,
    data := data.getD [], error := none }

/-- on_task_progress: the progress float (given here by its repr) is
written into the event data under the progress key. -/
def on_task_progress (trace_id correlation_id event_id task_id : String)
    (progressRepr : String) (agent_id : Option String) (message : String)
    (data : Option (List (String × PValue))) : MonitoringEvent :=
  { event_id := event_id, event_type := .task_progress, severity := .info,
    trace_id := trace_id, correlation_id := correlation_id,
    task_id := some task_id, agent_id := agent_id, message := message,
    data := alistSet (data.getD []) "progress" (.pyfloat progressRepr),
    error := none }

/-- on_task_end: severity info. -/
def on_task_end (trace_id correlation_id event_id task_id : String)
    (agent_id : Option String) (message : String)
    (data : Option (List (String × PValue))) : MonitoringEvent :=
  { event_id := event_id, event_type := .task_end, severity := .info,
    trace_id := trace_id, correlation_id := correlation_id,
    task_id := some task_id, agent_id := agent_id, message := message,
    data := data.getD [], error := none }

/-- on_task_error: severity error, message defaulting to
"Task error: " ++ str(error), and the error field carrying the
exception's type name and message. -/
def on_task_error (trace_id correlation_id event_id task_id : String)
    (err : PyExn) (agent_id : Option String) (message : Option String)
    (data : Option (List (String × PValue))) : MonitoringEvent :=
  { event_id := event_id, event_type := .task_error, severity := .error,
    trace_id := trace_id, correlation_id := correlation_id,
    task_id := some task_id, agent_id := agent_id,
    message := message.getD ("Task error: " ++ err.message),
    data := data.getD [], error := some (err.typeName, err.message) }

/-! ## Orchestration workflow (src/workflows/dynamic_planner.py) -/

/-- A datetime as the assembly time parser manipulates it: an abstract
calendar-day index (dates are totally ordered and a one-hour timedelta
can roll over to the next day) plus the time-of-day fields.  Absolute
time, for datetime comparison and arithmetic, is toAbsMicro. -/
structure PyTime where
  day : Int
  hour : Nat
  minute : Nat
  second : Nat
  microsecond : Nat
deriving DecidableEq, Repr

/-- Microseconds since the (abstract) epoch; datetime comparison and
timedelta arithmetic act on this value. -/
def PyTime.toAbsMicro (t : PyTime) : Int :=
  ((((t.day * 24 + t.hour) * 60 + t.minute) * 60 + t.second) * 1000000 : Int)
    + t.microsecond

/-- base_date.replace(hour=h, minute=m): seconds and microseconds are
kept (the fallback branches of _parse_time_range do not reset them). -/
def PyTime.replaceHM (t : PyTime) (h m : Nat) : PyTime :=
  { t with hour := h, minute := m }

/-- base_date.replace(hour=h, minute=m, second=0, microsecond=0), as the
success branch of _parse_time_range builds its datetimes. -/
def PyTime.replaceHMS0 (t : PyTime) (h m : Nat) : PyTime :=
  { t with hour := h, minute := m, second := 0, microsecond := 0 }

/-- t + timedelta(hours=1), rolling over to the next day from 23:xx. -/
def PyTime.addOneHour (t : PyTime) : PyTime :=
  if t.hour + 1 ≤ 23 then { t with hour := t.hour + 1 }
  else { t with day := t.day + 1, hour := t.hour + 1 - 24 }

/-- Numeric value of a decimal digit character. -/
def digitVal (c : Char) : Nat := c.toNat - 48

/-- The candidate parses of the hour for strptime's %I directive, in the
order its regex alternation (1[0-2]|0[1-9]|[1-9]) tries them, each with
the remaining input. -/
def hourCandidates : List Char → List (Nat × List Char)
  | c₁ :: c₂ :: rest =>
    (if c₁ = '1' ∧ '0' ≤ c₂ ∧ c₂ ≤ '2' then [(10 + digitVal c₂, rest)] else []) ++
    (if c₁ = '0' ∧ '1' ≤ c₂ ∧ c₂ ≤ '9' then [(digitVal c₂, rest)] else []) ++
    (if '1' ≤ c₁ ∧ c₁ ≤ '9' then [(digitVal c₁, c₂ :: rest)] else [])
  | [c₁] => if '1' ≤ c₁ ∧ c₁ ≤ '9' then [(digitVal c₁, [])] else []
  | [] => []

/-- The candidate parses of the minute for %M, regex ([0-5]\d|\d). -/
def minuteCandidates : List Char → List (Nat × List Char)
  | c₁ :: c₂ :: rest =>
    (if '0' ≤ c₁ ∧ c₁ ≤ '5' ∧ c₂.isDigit then
      [(digitVal c₁ * 10 + digitVal c₂, rest)] else []) ++
    (if c₁.isDigit then [(digitVal c₁, c₂ :: rest)] else [])
  | [c₁] => if c₁.isDigit then [(digitVal c₁, [])] else []
  | [] => []

/-- After the minute, the format "%I:%M %p" requires whitespace (\s+),
then a case-insensitive AM or PM consuming the rest of the input
(strptime rejects unconverted trailing data).  Returns whether the
marker is PM. -/
def parseAmPm (cs : List Char) : Option Bool :=
  if (cs.takeWhile Char.isWhitespace).isEmpty then none
  else
    match cs.dropWhile Char.isWhitespace with
    | [p, m] =>
      if p.toLower = 'a' ∧ m.toLower = 'm' then some false
      else if p.toLower = 'p' ∧ m.toLower = 'm' then some true
      else none
    | _ => none

/-- %I and %p to a 24-hour value: 12 AM is 0, 12 PM stays 12. -/
def hour12To24 (h : Nat) (pm : Bool) : Nat :=
  if pm then (if h = 12 then 12 else h + 12)
  else (if h = 12 then 0 else h)

/-- datetime.strptime(s, "%I:%M %p") reduced to the (hour24, minute) it
yields, None when strptime would raise ValueError.  Candidates are tried
in regex backtracking order; the first full match wins.  (Strings are
handled as their character lists throughout the time parser.) -/
def strptimeClock (cs : List Char) : Option (Nat × Nat) :=
  (hourCandidates cs).findSome? fun hc =>
    match hc.2 with
    | ':' :: afterColon =>
      (minuteCandidates afterColon).findSome? fun mc =>
        match parseAmPm mc.2 with
        | some pm => some (hour12To24 hc.1 pm, mc.1)
        | none => none
    | _ => none

/-- Helper of pySplitChar carrying the current chunk (reversed). -/
def pySplitCharAux (c : Char) : List Char → List Char → List (List Char)
  | [], acc => [acc.reverse]
  | x :: rest, acc =>
    if x = c then acc.reverse :: pySplitCharAux c rest []
    else pySplitCharAux c rest (x :: acc)

/-- Python str.split(sep) for a one-character separator, on character
lists: splits at every occurrence, keeping empty chunks. -/
def pySplitChar (c : Char) (cs : List Char) : List (List Char) :=
  pySplitCharAux c cs []

/-- Python str.strip(): drop leading and trailing whitespace. -/
def pyStrip (cs : List Char) : List Char :=
  ((cs.dropWhile Char.isWhitespace).reverse.dropWhile Char.isWhitespace).reverse

/-- dict.get on a Python dict value: first entry with the key, else
None. -/
def pdictGet : PEntryList → String → Option PValue
  | .nil, _ => none
  | .cons k v tl, key => if k = key then some v else pdictGet tl key

namespace DynamicPlannerWorkflow

/-- _parse_time_range: parse a "9:00 AM - 11:00 AM" style range against
the segment's day.  Guard failures, strptime errors (the try/except) and
an end at or before the start all take the documented defaults: the
9:00-10:00 fallback, or start + one hour. -/
def parse_time_range (time_str : String) (base_date : PyTime) :
    PyTime × PyTime :=
  let fallback := (base_date.replaceHM 9 0, base_date.replaceHM 10 0)
  if time_str = "" ∨ ¬ (time_str.data.contains '-') then fallback
  else
    match (pySplitChar '-' time_str.data).map pyStrip with
    | [startRaw, endRaw] =>
      match strptimeClock startRaw, strptimeClock endRaw with
      | some st, some en =>
        let startFull := base_date.replaceHMS0 st.1 st.2
        let endFull := base_date.replaceHMS0 en.1 en.2
        let endFull :=
          if endFull.toAbsMicro ≤ startFull.toAbsMicro then startFull.addOneHour
          else endFull
        (startFull, endFull)
      | _, _ => fallback
    | _ => fallback

/-- The well-defined empty optimization result of _wait_for_optimization:
a dict with empty flights, hotels and activities lists. -/
def emptyOptimization : PValue :=
  .pydict (.cons "flights" (.pylist .nil)
    (.cons "hotels" (.pylist .nil)
      (.cons "activities" (.pylist .nil) .nil)))

/-- _wait_for_optimization.  received is the outcome of
receive_message("orchestrator", timeout, OPTIMIZED_PLAN): the matching
envelope, or None when the bounded wait timed out.  On timeout it falls
back to the state store: first the "optimized_plan:" ++ task_id key, then
(when that value is falsy) the "optimized_plan:" ++ correlation_id key,
and finally the empty result when the chosen value is still falsy.
Returns the plan payload and the store state left by the reads. -/
def wait_for_optimization (received : Option A2AMessage) (st : StoreState)
    (now : Nat) (ctx : TaskContext) : PValue × StoreState :=
  match received with
  | some msg => (.pydict msg.payload, st)
  | none =>
    let r₁ := InMemoryStateStore.get st now ("optimized_plan:" ++ ctx.task_id)
    let r₂ :=
      if pyTruthyOpt r₁.1 then r₁
      else InMemoryStateStore.get r₁.2 now ("optimized_plan:" ++ ctx.correlation_id)
    match r₂.1 with
    | some v => if pyTruthy v then (v, r₂.2) else (emptyOptimization, r₂.2)
    | none => (emptyOptimization, r₂.2)

/-- The data on_task_end receives in execute: the itinerary id and the
stringified total cost. -/
structure ItinSummary where
  itinerary_id : String
  total_cost : String
deriving DecidableEq, Repr

/-- execute, as a function of the outcomes of its awaited steps.
task_id is the fresh uuid4; trace and correlation ids come from the
callbacks; uuidSupply provides the successive uuid4 event ids.  The step
parameters give each asynchronous step's outcome: start_listening,
crewai_agent.plan_itinerary, _wait_for_optimization (instantiate with
.ok (wait_for_optimization ... ).1 — in the in-memory model that call
only times out, it does not raise) and _create_itinerary.  Returns the
final context status, the monitoring events emitted in order, and the
returned or re-raised outcome. -/
def execute (trace_id correlation_id task_id : String)
    (request_params : PEntryList) (uuidSupply : Nat → String)
    (startListening planItinerary : Except PyExn Unit)
    (waitResult : Except PyExn PValue)
    (createItinerary : PValue → Except PyExn ItinSummary) :
    TaskStatus × List MonitoringEvent × Except PyExn ItinSummary :=
  let startEvt := on_task_start trace_id correlation_id (uuidSupply 0) task_id
    none "Starting dynamic planning workflow"
    (some [("destination", (pdictGet request_params "destination").getD .pynull)])
  let errEvt := fun (i : Nat) (e : PyExn) =>
    on_task_error trace_id correlation_id (uuidSupply i) task_id e none
      (some ("Workflow failed: " ++ e.message)) none
  match startListening with
  | .error e => (.failed, [startEvt, errEvt 1 e], .error e)
  | .ok _ =>
    let p₁ := on_task_progress trace_id correlation_id (uuidSupply 1) task_id
      "0.3" none "CrewAI agent creating travel proposal" none
    match planItinerary with
    | .error e => (.failed, [startEvt, p₁, errEvt 2 e], .error e)
    | .ok _ =>
      let p₂ := on_task_progress trace_id correlation_id (uuidSupply 2) task_id
        "0.6" none "Waiting for ADK agent optimization" none
      match waitResult with
      | .error e => (.failed, [startEvt, p₁, p₂, errEvt 3 e], .error e)
      | .ok plan =>
        let p₃ := on_task_progress trace_id correlation_id (uuidSupply 3) task_id
          "0.8" none "Assembling final itinerary" none
        match createItinerary plan with
        | .error e => (.failed, [startEvt, p₁, p₂, p₃, errEvt 4 e], .error e)
        | .ok itin =>
          let endEvt := on_task_end trace_id correlation_id (uuidSupply 4)
            task_id none "Workflow completed successfully"
            (some [("itinerary_id", .pystr itin.itinerary_id),
                   ("total_cost", .pystr itin.total_cost)])
          (.completed, [startEvt, p₁, p₂, p₃, endEvt], .ok itin)

end DynamicPlannerWorkflow

/-- A concrete stand-in digest function for witnesses: a deterministic
function of the secret and the canonical bytes, as HMAC-SHA256 is. -/
def hmacHexStandin (secret canonical : String) : String :=
  secret ++ "#" ++ canonical

/-- The canonical text of a message whose canonicalization succeeds. -/
def canonicalOk (m : A2AMessage) : String :=
  match canonical_message m with
  | .ok c => c
  | .error _ => ""

/-- A concrete well-formed unsigned envelope used by witnesses. -/
def exMsg : A2AMessage :=
  { message_id := "m-001", trace_id := "trace-1", correlation_id := "corr-1",
    message_type := "proposal", version := "1.0",
    timestamp := ⟨2024, 1, 2, 3, 4, 5, 0⟩,
    payload := .cons "data" (.pystr "test") .nil,
    meta := { sender := "agent-1", receiver := some "agent-2",
              priority := 5, ttl := 300 },
    signature := none }

/-- exMsg with its payload value replaced by a different string. -/
def exMsgTampered : A2AMessage :=
  { exMsg with payload := .cons "data" (.pystr "TAMPERED") .nil }

/-- A payload holding the Python value Decimal("0.1"): its exact value
is 1/10 and float(Decimal("0.1")) is the IEEE-754 double nearest 1/10,
whose repr is "0.1". -/
def decOriginal : PValue := .pydecimal (1 / 10 : ℚ) "0.1"

/-- A payload holding the numerically different Python value
Decimal("0.1000000000000000055511151231257827021181583404541015625"),
which is exactly the double nearest 1/10, namely
3602879701896397 / 2^55; float() of it is that same double, so its repr
is also "0.1". -/
def decTampered : PValue :=
  .pydecimal ((3602879701896397 : ℚ) / 36028797018963968) "0.1"

/-- The unsigned envelope whose payload carries Decimal("0.1"). -/
def cexBase : A2AMessage :=
  { message_id := "m-cex", trace_id := "trace-cex", correlation_id := "corr-cex",
    message_type := "proposal", version := "1.0",
    timestamp := ⟨2024, 1, 2, 3, 4, 5, 0⟩,
    payload := .cons "amount" decOriginal .nil,
    meta := { sender := "agent-1", receiver := some "agent-2",
              priority := 5, ttl := 300 },
    signature := none }

/-- cexBase signed with the stand-in digest under the secret "secret". -/
def cexSigned : A2AMessage :=
  { cexBase with signature := some (hmacHexStandin "secret" (canonicalOk cexBase)) }

/-- The signed envelope after mutating the payload: the Decimal amount
replaced by the numerically different decimal with the same float
image. -/
def cexMutated : A2AMessage :=
  { cexSigned with payload := .cons "amount" decTampered .nil }

/-- exMsg with no metadata receiver. -/
def exMsgNoRecv : A2AMessage :=
  { exMsg with meta := { exMsg.meta with receiver := none } }

/-- A concrete bus state with a queue, a subscriber and some history. -/
def exBus : BusState :=
  { queues := [("agent-2", [])], subscribers := [("agent-2", [0])],
    message_history := [exMsg], max_history := 1000 }

/-- The task context of the counterexample run: task id TA, correlation
id CO, trace id TR. -/
def cexCtx : TaskContext :=
  { task_id := "TA", correlation_id := "CO", trace_id := "TR",
    request_params := .nil, status := .running }

/-- A truthy optimized plan value. -/
def cexTracePlan : PValue := .pystr "optimized-plan"

/-- A state store holding the plan only under the trace-id scoped key
"optimized_plan:TR". -/
def cexStore : StoreState :=
  { store := [("optimized_plan:TR", cexTracePlan)], expiry := [] }

/-- A state store holding the plan under the task-id scoped key. -/
def exStoreTask : StoreState :=
  { store := [("optimized_plan:TA", cexTracePlan)], expiry := [] }

/-- A concrete Python exception for witnesses. -/
def exExn : PyExn := { typeName := "ValueError", message := "boom" }

/-- The Python-dict representation invariant of the store: keys are
unique in both underlying dicts (a Python dict cannot hold duplicate
keys). -/
def storeWF (st : StoreState) : Bool :=
  decide ((st.store.map Prod.fst).Nodup) && decide ((st.expiry.map Prod.fst).Nodup)

/-- The claimed invariant: every key with a recorded expiry timestamp is
present in the value dict (no orphan expiry entries). -/
def expiryCovered (st : StoreState) : Bool :=
  st.expiry.all (fun kv => (alistGet st.store kv.1).isSome)

/-- Combined store invariant. -/
def storeInv (st : StoreState) : Bool := storeWF st && expiryCovered st

/-- A concrete store satisfying the invariant, for witnesses. -/
def exInvStore : StoreState := { store := [("a", .pyint 1)], expiry := [("a", 5)] }

/-! ## Helper lemmas -/

mutual
/-- The canonical value encoder fails exactly on values containing an
unrepresentable object: error direction and success direction. -/
theorem encodeValue_total (v : PValue) :
    (hasUnserializable v = true → ∃ e, encodeValue v = .error e) ∧
    (hasUnserializable v = false → ∃ s, encodeValue v = .ok s) := by
  cases v with
  | pylist xs =>
    have h := encodeList_total xs
    constructor
    · intro hh
      simp only [hasUnserializable] at hh
      obtain ⟨e, he⟩ := h.1 hh
      exact ⟨e, by simp [encodeValue, he]⟩
    · intro hh
      simp only [hasUnserializable] at hh
      obtain ⟨s, hs⟩ := h.2 hh
      exact ⟨"[" ++ String.intercalate ", " s ++ "]", by simp [encodeValue, hs]⟩
  | pydict es =>
    have h := encodeEntries_total es
    constructor
    · intro hh
      simp only [hasUnserializable] at hh
      obtain ⟨e, he⟩ := h.1 hh
      exact ⟨e, by simp [encodeValue, he]⟩
    · intro hh
      simp only [hasUnserializable] at hh
      obtain ⟨s, hs⟩ := h.2 hh
      exact ⟨"\x7b" ++
        String.intercalate ", "
          ((sortByKey s).map (fun p => jsonQuote p.1 ++ ": " ++ p.2)) ++ "\x7d",
        by simp [encodeValue, hs]⟩
  | pyother t =>
    exact ⟨fun _ => ⟨_, rfl⟩, fun hh => by simp [hasUnserializable] at hh⟩
  | pynull => exact ⟨fun hh => by simp [hasUnserializable] at hh, fun _ => ⟨_, rfl⟩⟩
  | pybool b => exact ⟨fun hh => by simp [hasUnserializable] at hh, fun _ => ⟨_, rfl⟩⟩
  | pyint n => exact ⟨fun hh => by simp [hasUnserializable] at hh, fun _ => ⟨_, rfl⟩⟩
  | pyfloat r => exact ⟨fun hh => by simp [hasUnserializable] at hh, fun _ => ⟨_, rfl⟩⟩
  | pystr s => exact ⟨fun hh => by simp [hasUnserializable] at hh, fun _ => ⟨_, rfl⟩⟩
  | pydecimal q fr => exact ⟨fun hh => by simp [hasUnserializable] at hh, fun _ => ⟨_, rfl⟩⟩
  | pydatetime dt => exact ⟨fun hh => by simp [hasUnserializable] at hh, fun _ => ⟨_, rfl⟩⟩
  | pydate d => exact ⟨fun hh => by simp [hasUnserializable] at hh, fun _ => ⟨_, rfl⟩⟩

/-- List version of encodeValue_total. -/
theorem encodeList_total (xs : PValueList) :
    (hasUnserializableL xs = true → ∃ e, encodeList xs = .error e) ∧
    (hasUnserializableL xs = false → ∃ s, encodeList xs = .ok s) := by
  cases xs with
  | nil =>
    exact ⟨fun hh => by simp [hasUnserializableL] at hh, fun _ => ⟨_, rfl⟩⟩
  | cons v tl =>
    have hv := encodeValue_total v
    have ht := encodeList_total tl
    constructor
    · intro hh
      simp only [hasUnserializableL, Bool.or_eq_true] at hh
      cases hh with
      | inl hh =>
        obtain ⟨e, he⟩ := hv.1 hh
        exact ⟨e, by simp [encodeList, he]⟩
      | inr hh =>
        cases hev : encodeValue v with
        | error e => exact ⟨e, by simp [encodeList, hev]⟩
        | ok s =>
          obtain ⟨e, he⟩ := ht.1 hh
          exact ⟨e, by simp [encodeList, hev, he]⟩
    · intro hh
      simp only [hasUnserializableL, Bool.or_eq_false_iff] at hh
      obtain ⟨s, hs⟩ := hv.2 hh.1
      obtain ⟨r, hr⟩ := ht.2 hh.2
      exact ⟨s :: r, by simp [encodeList, hs, hr]⟩

/-- Dict-entry version of encodeValue_total. -/
theorem encodeEntries_total (es : PEntryList) :
    (hasUnserializableE es = true → ∃ e, encodeEntries es = .error e) ∧
    (hasUnserializableE es = false → ∃ s, encodeEntries es = .ok s) := by
  cases es with
  | nil =>
    exact ⟨fun hh => by simp [hasUnserializableE] at hh, fun _ => ⟨_, rfl⟩⟩
  | cons k v tl =>
    have hv := encodeValue_total v
    have ht := encodeEntries_total tl
    constructor
    · intro hh
      simp only [hasUnserializableE, Bool.or_eq_true] at hh
      cases hh with
      | inl hh =>
        obtain ⟨e, he⟩ := hv.1 hh
        exact ⟨e, by simp [encodeEntries, he]⟩
      | inr hh =>
        cases hev : encodeValue v with
        | error e => exact ⟨e, by simp [encodeEntries, hev]⟩
        | ok s =>
          obtain ⟨e, he⟩ := ht.1 hh
          exact ⟨e, by simp [encodeEntries, hev, he]⟩
    · intro hh
      simp only [hasUnserializableE, Bool.or_eq_false_iff] at hh
      obtain ⟨s, hs⟩ := hv.2 hh.1
      obtain ⟨r, hr⟩ := ht.2 hh.2
      exact ⟨(k, s) :: r, by simp [encodeEntries, hs, hr]⟩
end

/-- C3: for every envelope E and secret S whose signing succeeds,
verifying the signed envelope with the same secret returns True:
sign_message stores hmac(S, canonical(E)) in the signature field,
canonicalization ignores the signature field, so verify_message
recomputes the identical digest and compare_digest succeeds. -/
theorem verify_sign_roundtrip (hmac : String → String → String)
    (m : A2AMessage) (secret : String) (signed : A2AMessage)
    (h : sign_message hmac m secret = .ok signed) :
    verify_message hmac signed secret = .ok true := by
  unfold sign_message compute_hmac_signature at h
  cases hc : canonical_message m with
  | error e => rw [hc] at h; exact absurd h (by simp)
  | ok c =>
    rw [hc] at h
    simp only [Except.ok.injEq] at h
    subst h
    have hcan : canonical_message { m with signature := some (hmac secret c) } =
        canonical_message m := rfl
    simp [verify_message, compute_hmac_signature, hcan, hc]

/-- Witness for C3 at a concrete envelope, secret and digest function. -/
theorem verify_sign_roundtrip_witness :
    verify_message hmacHexStandin
      { exMsg with signature := some (hmacHexStandin "secret" (canonicalOk exMsg)) }
      "secret" = .ok true :=
  verify_sign_roundtrip hmacHexStandin exMsg "secret"
    { exMsg with signature := some (hmacHexStandin "secret" (canonicalOk exMsg)) }
    rfl

/-- C4: canonicalization renders a Decimal payload value as the fixed
text of its float image, a datetime or date as its quoted isoformat
string, fails with a TypeError exactly on payloads containing a value the
encoder cannot represent, succeeds on all others, and the failure
propagates out of the whole-envelope canonicalization (it is raised, not
silently coerced). -/
theorem canonicalization_fails_loudly :
    (∀ (q : ℚ) (fr : String), encodeValue (.pydecimal q fr) = .ok fr)
    ∧ (∀ dt : PyDatetime, encodeValue (.pydatetime dt) = .ok (jsonQuote dt.isoformat))
    ∧ (∀ d : PyDate, encodeValue (.pydate d) = .ok (jsonQuote d.isoformat))
    ∧ (∀ v : PValue, hasUnserializable v = true → ∃ e, encodeValue v = .error e)
    ∧ (∀ v : PValue, hasUnserializable v = false → ∃ s, encodeValue v = .ok s)
    ∧ (∀ m : A2AMessage, hasUnserializableE m.payload = true →
        ∃ e, canonical_message m = .error e) := by
  refine ⟨fun q fr => rfl, fun dt => rfl, fun d => rfl,
    fun v h => (encodeValue_total v).1 h, fun v h => (encodeValue_total v).2 h, ?_⟩
  intro m hm
  obtain ⟨e, he⟩ := (encodeEntries_total m.payload).1 hm
  exact ⟨e, by simp [canonical_message, encodeValue, he]⟩

/-- Witness for C4: a bare unserializable object (a Python set) makes the
encoder raise, and an ordinary list payload value encodes. -/
theorem canonicalization_fails_loudly_witness :
    (∃ e, encodeValue (.pyother "set") = .error e)
    ∧ (∃ s, encodeValue (.pylist (.cons (.pyint 3) .nil)) = .ok s) :=
  ⟨canonicalization_fails_loudly.2.2.2.1 (.pyother "set") rfl,
   canonicalization_fails_loudly.2.2.2.2.1 (.pylist (.cons (.pyint 3) .nil)) rfl⟩

/-- C2 (amended): the signature is a pure function of the canonical
serialization of the non-signature fields and the secret (the signature
field itself never enters the canonical text), and any post-signing
mutation that changes the canonical serialization is detected: for an
injective digest, verification of the mutated envelope carrying the
original signature cannot return True. -/
theorem verify_detects_canonical_mutation (hmac : String → String → String)
    (secret c₁ : String) (m₁ m₂ : A2AMessage)
    (hinj : Function.Injective (hmac secret))
    (h₁ : canonical_message m₁ = .ok c₁)
    (hne : canonical_message m₂ ≠ canonical_message m₁) :
    (∀ s : Option String,
      canonical_message { m₂ with signature := s } = canonical_message m₂)
    ∧ verify_message hmac { m₂ with signature := some (hmac secret c₁) } secret ≠
        .ok true := by
  refine ⟨fun s => rfl, ?_⟩
  have hcan : canonical_message { m₂ with signature := some (hmac secret c₁) } =
      canonical_message m₂ := rfl
  cases hc₂ : canonical_message m₂ with
  | error e => simp [verify_message, compute_hmac_signature, hcan, hc₂]
  | ok c₂ =>
    simp only [verify_message, compute_hmac_signature, hcan, hc₂]
    intro hcontra
    simp only [Except.ok.injEq, decide_eq_true_eq] at hcontra
    exact hne (by rw [hc₂, ← hinj hcontra, h₁])

set_option maxRecDepth 4000 in
/-- Witness for C2's amended statement: with the identity digest (which
is injective per secret) a change of the payload string is rejected. -/
theorem verify_detects_canonical_mutation_witness :
    verify_message (fun _ b => b)
      { exMsgTampered with
          signature := some ((fun (_ b : String) => b) "secret" (canonicalOk exMsg)) }
      "secret" ≠ .ok true :=
  (verify_detects_canonical_mutation (fun _ b => b) "secret" (canonicalOk exMsg)
    exMsg exMsgTampered (fun _ _ hh => hh) rfl (by decide)).2

set_option maxRecDepth 8000 in
/-- Counterexample to C2 as stated: a genuine post-signing mutation of
the payload that verification does NOT detect.  The canonical encoder
converts a Decimal payload value via float(obj); Decimal("0.1") and
Decimal("0.1000000000000000055511151231257827021181583404541015625")
are unequal Decimals (Python compares them exactly, and the second is
exactly the IEEE-754 double nearest 0.1), yet float() maps both to the
same double, so both canonicalize to the number text 0.1 and the
canonical bytes of the mutated envelope coincide with the signed ones.
Any deterministic digest of those bytes — HMAC-SHA256 included — then
reproduces the stored signature and verify_message returns True. -/
theorem verify_decimal_float_collision_counterexample :
    sign_message hmacHexStandin cexBase "secret" = .ok cexSigned
    ∧ cexMutated.payload ≠ cexSigned.payload
    ∧ canonical_message cexMutated = canonical_message cexSigned
    ∧ verify_message hmacHexStandin cexMutated "secret" = .ok true := by
  have hq : ((3602879701896397 : ℚ) / 36028797018963968) ≠ (10 : ℚ)⁻¹ := by
    norm_num
  refine ⟨rfl, ?_, rfl, ?_⟩
  · simp [cexMutated, cexSigned, cexBase, decTampered, decOriginal, hq]
  · show verify_message hmacHexStandin cexMutated "secret" = .ok true
    decide

/-- The last element survives dropping fewer elements than the length. -/
theorem getLast?_drop_of_lt {α : Type} (l : List α) (n : Nat) (h : n < l.length) :
    (l.drop n).getLast? = l.getLast? := by
  obtain ⟨pre, hp⟩ := List.drop_suffix n l
  have hne : l.drop n ≠ [] := by
    intro hnil
    have h₂ := List.length_drop n l
    rw [hnil] at h₂
    simp at h₂
    omega
  conv_rhs => rw [← hp]
  exact (List.getLast?_append_of_ne_nil pre hne).symm

/-- C5 (amended): for every positive limit, the history operation
returns the most recent min(limit, matches) matching envelopes as a
suffix of the filtered history in chronological order — the newest
matching envelope is the LAST element of the result, not the first. -/
theorem get_message_history_recent_slice (hist : List A2AMessage)
    (t c : Option String) (limit : Int) (h : 0 < limit) :
    (get_message_history hist t c limit).length =
      min limit.toNat (filterHistory hist t c).length
    ∧ get_message_history hist t c limit <:+ filterHistory hist t c
    ∧ (filterHistory hist t c ≠ [] →
        (get_message_history hist t c limit).getLast? =
          (filterHistory hist t c).getLast?) := by
  have hlt : -limit < 0 := by omega
  have hget : get_message_history hist t c limit =
      (filterHistory hist t c).drop
        (max 0 (((filterHistory hist t c).length : Int) + -limit)).toNat := by
    simp [get_message_history, pySliceFromIdx, hlt]
  have hn : (max 0 (((filterHistory hist t c).length : Int) + -limit)).toNat =
      (filterHistory hist t c).length - limit.toNat := by omega
  refine ⟨?_, ?_, ?_⟩
  · rw [hget, hn, List.length_drop]
    omega
  · rw [hget]
    exact List.drop_suffix _ _
  · intro hne
    have hpos : 0 < (filterHistory hist t c).length := List.length_pos.mpr hne
    rw [hget, hn]
    exact getLast?_drop_of_lt _ _ (by omega)

/-- Witness for C5's amended statement at a concrete one-element
history. -/
theorem get_message_history_recent_slice_witness :
    (get_message_history [exMsg] none none 5).length =
      min (5 : Int).toNat (filterHistory [exMsg] none none).length
    ∧ get_message_history [exMsg] none none 5 <:+ filterHistory [exMsg] none none
    ∧ (filterHistory [exMsg] none none ≠ [] →
        (get_message_history [exMsg] none none 5).getLast? =
          (filterHistory [exMsg] none none).getLast?) :=
  get_message_history_recent_slice [exMsg] none none 5 (by norm_num)

/-- Counterexample to C5 as stated: the slice is not most-recent-first.
send_message appends to the history, so in the history [exMsg,
exMsgTampered] the envelope exMsgTampered is the newest; with no filters
and the default limit 100 the operation returns the messages in
chronological order, whose FIRST element is the oldest envelope exMsg,
not the newest. -/
theorem get_message_history_order_counterexample :
    get_message_history [exMsg, exMsgTampered] none none 100 =
      [exMsg, exMsgTampered]
    ∧ (get_message_history [exMsg, exMsgTampered] none none 100).head? =
        some exMsg
    ∧ exMsg ≠ exMsgTampered := by
  refine ⟨rfl, rfl, by decide⟩

/-- C6: send_message with no explicit receiver and no metadata receiver
returns False (it does not raise: the model is a total function), leaves
the bus state — queues, subscribers, history — unchanged, and invokes no
subscriber callback. -/
theorem send_message_no_receiver_noop (st : BusState) (m : A2AMessage)
    (h : m.meta.receiver = none) :
    send_message st m none = (false, st, []) := by
  simp [send_message, resolveTarget, h]

/-- Witness for C6 at a concrete bus state and receiverless envelope. -/
theorem send_message_no_receiver_noop_witness :
    send_message exBus exMsgNoRecv none = (false, exBus, []) :=
  send_message_no_receiver_noop exBus exMsgNoRecv rfl

/-- Adding the one-hour timedelta advances absolute time by exactly one
hour (3.6e9 microseconds), also across a day rollover. -/
theorem toAbsMicro_addOneHour (t : PyTime) :
    t.addOneHour.toAbsMicro = t.toAbsMicro + 3600000000 := by
  unfold PyTime.addOneHour
  split
  · simp only [PyTime.toAbsMicro]
    push_cast
    ring
  · rename_i hge
    have h23 : 23 ≤ t.hour := by omega
    simp only [PyTime.toAbsMicro]
    push_cast [h23]
    omega

/-- C7: the assembly time-range parser is a total function (every parse
failure is absorbed by the documented fallbacks, so no exception can
escape), the end-before-start input "2:00 PM - 1:00 PM" yields the
one-hour window 14:00-15:00 on the given day, and on every input the
returned window's end lies strictly after its start. -/
theorem parse_time_range_safe :
    (∀ base : PyTime,
      DynamicPlannerWorkflow.parse_time_range "2:00 PM - 1:00 PM" base =
        (base.replaceHMS0 14 0, base.replaceHMS0 15 0))
    ∧ ∀ (s : String) (base : PyTime),
        (DynamicPlannerWorkflow.parse_time_range s base).1.toAbsMicro <
          (DynamicPlannerWorkflow.parse_time_range s base).2.toAbsMicro := by
  constructor
  · intro base
    unfold DynamicPlannerWorkflow.parse_time_range
    rw [if_neg (by decide)]
    have hsplit : (pySplitChar '-' "2:00 PM - 1:00 PM".data).map pyStrip =
        ["2:00 PM".data, "1:00 PM".data] := by decide
    have h1 : strptimeClock "2:00 PM".data = some (14, 0) := by decide
    have h2 : strptimeClock "1:00 PM".data = some (13, 0) := by decide
    simp only [hsplit, h1, h2]
    rw [if_pos (by simp only [PyTime.toAbsMicro, PyTime.replaceHMS0]; omega)]
    simp [PyTime.addOneHour, PyTime.replaceHMS0]
  · intro s base
    unfold DynamicPlannerWorkflow.parse_time_range
    split
    · simp only [PyTime.toAbsMicro, PyTime.replaceHM]
      omega
    · split
      · split
        · dsimp only
          split
          · rw [toAbsMicro_addOneHour]
            omega
          · rename_i hnle
            omega
        all_goals (simp only [PyTime.toAbsMicro, PyTime.replaceHM]; omega)
      · simp only [PyTime.toAbsMicro, PyTime.replaceHM]
        omega

/-- The lazy expiry sweep is idempotent at a fixed time: a second sweep
finds nothing left to evict. -/
theorem cleanup_expired_idem (st : StoreState) (now : Nat) :
    InMemoryStateStore.cleanup_expired (InMemoryStateStore.cleanup_expired st now) now =
      InMemoryStateStore.cleanup_expired st now := by
  unfold InMemoryStateStore.cleanup_expired
  have hempty : ((st.expiry.filter (fun kv => !(kv.2 ≤ now))).filter
      (fun kv => kv.2 ≤ now)) = [] := by
    rw [List.filter_filter]
    apply List.filter_eq_nil_iff.mpr
    intro kv _
    simp
  simp only [hempty, List.filter_filter]
  simp

/-- Reading through the state left by a previous get at the same time
yields the same value as reading the original store: get only performs
the idempotent sweep. -/
theorem get_after_get (st : StoreState) (now : Nat) (k₁ k₂ : String) :
    (InMemoryStateStore.get (InMemoryStateStore.get st now k₁).2 now k₂).1 =
      (InMemoryStateStore.get st now k₂).1 := by
  simp [InMemoryStateStore.get, cleanup_expired_idem]

/-- C1 (amended): on a received optimized_plan message its payload is
returned with the store untouched; on timeout the fallback reads the
task_id-scoped key "optimized_plan:" ++ task_id first, then — not the
trace_id-scoped key the claim names — the correlation_id-scoped key
"optimized_plan:" ++ correlation_id, and returns the empty result
(flights/hotels/activities all empty) when both reads yield a falsy
value, instead of failing the run. -/
theorem wait_for_optimization_fallback_order (st : StoreState) (now : Nat)
    (ctx : TaskContext) :
    (∀ m : A2AMessage,
      DynamicPlannerWorkflow.wait_for_optimization (some m) st now ctx =
        (.pydict m.payload, st))
    ∧ (∀ v, (InMemoryStateStore.get st now ("optimized_plan:" ++ ctx.task_id)).1 = some v →
        pyTruthy v = true →
        (DynamicPlannerWorkflow.wait_for_optimization none st now ctx).1 = v)
    ∧ (pyTruthyOpt (InMemoryStateStore.get st now ("optimized_plan:" ++ ctx.task_id)).1 = false →
        ∀ v, (InMemoryStateStore.get st now ("optimized_plan:" ++ ctx.correlation_id)).1 = some v →
        pyTruthy v = true →
        (DynamicPlannerWorkflow.wait_for_optimization none st now ctx).1 = v)
    ∧ (pyTruthyOpt (InMemoryStateStore.get st now ("optimized_plan:" ++ ctx.task_id)).1 = false →
        pyTruthyOpt (InMemoryStateStore.get st now ("optimized_plan:" ++ ctx.correlation_id)).1 = false →
        (DynamicPlannerWorkflow.wait_for_optimization none st now ctx).1 =
          DynamicPlannerWorkflow.emptyOptimization) := by
  refine ⟨fun m => rfl, ?_, ?_, ?_⟩
  · intro v hv ht
    simp [DynamicPlannerWorkflow.wait_for_optimization, hv, pyTruthyOpt, ht]
  · intro h₁ v hv ht
    simp only [DynamicPlannerWorkflow.wait_for_optimization, h₁, Bool.false_eq_true,
      if_false, get_after_get]
    simp only [get_after_get, hv]
    simp [ht]
  · intro h₁ h₂
    simp only [DynamicPlannerWorkflow.wait_for_optimization, h₁, Bool.false_eq_true,
      if_false, get_after_get]
    cases hval : (InMemoryStateStore.get st now ("optimized_plan:" ++ ctx.correlation_id)).1 with
    | none => rfl
    | some v =>
      rw [hval] at h₂
      simp only [pyTruthyOpt] at h₂
      simp [h₂]

/-- Witness for C1's amended statement: with the plan stored under the
task-id key, the timeout path returns it. -/
theorem wait_for_optimization_fallback_order_witness :
    (DynamicPlannerWorkflow.wait_for_optimization none exStoreTask 0 cexCtx).1 =
      cexTracePlan :=
  (wait_for_optimization_fallback_order exStoreTask 0 cexCtx).2.1 cexTracePlan
    (by decide) (by decide)

/-- Counterexample to C1 as stated: on timeout, with the plan stored
only under the trace-id scoped key "optimized_plan:TR" (the key the ADK
agent also writes), the orchestrator returns the empty result — the
second fallback read uses the correlation-id scoped key, not the
trace-id scoped one the claim (and the spec's key table) names. -/
theorem wait_for_optimization_trace_key_counterexample :
    (InMemoryStateStore.get cexStore 0 ("optimized_plan:" ++ cexCtx.trace_id)).1 =
      some cexTracePlan
    ∧ pyTruthy cexTracePlan = true
    ∧ (DynamicPlannerWorkflow.wait_for_optimization none cexStore 0 cexCtx).1 =
        DynamicPlannerWorkflow.emptyOptimization
    ∧ DynamicPlannerWorkflow.emptyOptimization ≠ cexTracePlan := by
  decide

/-- C8: whenever an exception escapes the listener/producer step, the
await step or the assembly step, execute sets the final status to
failed, the emitted events contain a task_error event carrying the
error's type name and message, and the same exception is re-raised to
the caller; and when every step succeeds (in particular when the await
step merely timed out — wait_for_optimization returns a value rather
than raising) the run completes with the itinerary. -/
theorem execute_error_propagation (trace_id correlation_id task_id : String)
    (request_params : PEntryList) (uuidSupply : Nat → String)
    (s₁ s₂ : Except PyExn Unit) (s₃ : Except PyExn PValue)
    (s₄ : PValue → Except PyExn DynamicPlannerWorkflow.ItinSummary) (e : PyExn) :
    ((s₁ = .error e
        ∨ (s₁ = .ok () ∧ s₂ = .error e)
        ∨ (s₁ = .ok () ∧ s₂ = .ok () ∧ s₃ = .error e)
        ∨ (∃ p, s₁ = .ok () ∧ s₂ = .ok () ∧ s₃ = .ok p ∧ s₄ p = .error e)) →
      (DynamicPlannerWorkflow.execute trace_id correlation_id task_id
          request_params uuidSupply s₁ s₂ s₃ s₄).1 = .failed
      ∧ (DynamicPlannerWorkflow.execute trace_id correlation_id task_id
          request_params uuidSupply s₁ s₂ s₃ s₄).2.2 = .error e
      ∧ ∃ evt ∈ (DynamicPlannerWorkflow.execute trace_id correlation_id task_id
          request_params uuidSupply s₁ s₂ s₃ s₄).2.1,
          evt.event_type = .task_error ∧ evt.error = some (e.typeName, e.message))
    ∧ ∀ p itin, s₁ = .ok () → s₂ = .ok () → s₃ = .ok p → s₄ p = .ok itin →
        (DynamicPlannerWorkflow.execute trace_id correlation_id task_id
          request_params uuidSupply s₁ s₂ s₃ s₄).1 = .completed
        ∧ (DynamicPlannerWorkflow.execute trace_id correlation_id task_id
          request_params uuidSupply s₁ s₂ s₃ s₄).2.2 = .ok itin := by
  constructor
  · intro h
    rcases h with h₁ | ⟨h₁, h₂⟩ | ⟨h₁, h₂, h₃⟩ | ⟨p, h₁, h₂, h₃, h₄⟩
    · subst h₁
      exact ⟨rfl, rfl,
        on_task_error trace_id correlation_id (uuidSupply 1) task_id e none
          (some ("Workflow failed: " ++ e.message)) none,
        by simp [DynamicPlannerWorkflow.execute], rfl, rfl⟩
    · subst h₁; subst h₂
      exact ⟨rfl, rfl,
        on_task_error trace_id correlation_id (uuidSupply 2) task_id e none
          (some ("Workflow failed: " ++ e.message)) none,
        by simp [DynamicPlannerWorkflow.execute], rfl, rfl⟩
    · subst h₁; subst h₂; subst h₃
      exact ⟨rfl, rfl,
        on_task_error trace_id correlation_id (uuidSupply 3) task_id e none
          (some ("Workflow failed: " ++ e.message)) none,
        by simp [DynamicPlannerWorkflow.execute], rfl, rfl⟩
    · subst h₁; subst h₂; subst h₃
      refine ⟨?_, ?_, ?_⟩
      · simp [DynamicPlannerWorkflow.execute, h₄]
      · simp [DynamicPlannerWorkflow.execute, h₄]
      · exact ⟨on_task_error trace_id correlation_id (uuidSupply 4) task_id e none
          (some ("Workflow failed: " ++ e.message)) none,
          by simp [DynamicPlannerWorkflow.execute, h₄], rfl, rfl⟩
  · intro p itin h₁ h₂ h₃ h₄
    subst h₁; subst h₂; subst h₃
    exact ⟨by simp [DynamicPlannerWorkflow.execute, h₄],
      by simp [DynamicPlannerWorkflow.execute, h₄]⟩

/-- Witness for C8: a producer-step ValueError fails the run, re-raises,
and a task_error event carrying ValueError/boom is emitted; the same
steps with a successful producer complete. -/
theorem execute_error_propagation_witness :
    (DynamicPlannerWorkflow.execute "t" "c" "task" .nil (fun _ => "u")
        (.ok ()) (.error exExn) (.ok DynamicPlannerWorkflow.emptyOptimization)
        (fun _ => .error exExn)).1 = .failed
    ∧ (DynamicPlannerWorkflow.execute "t" "c" "task" .nil (fun _ => "u")
        (.ok ()) (.error exExn) (.ok DynamicPlannerWorkflow.emptyOptimization)
        (fun _ => .error exExn)).2.2 = .error exExn
    ∧ ∃ evt ∈ (DynamicPlannerWorkflow.execute "t" "c" "task" .nil (fun _ => "u")
        (.ok ()) (.error exExn) (.ok DynamicPlannerWorkflow.emptyOptimization)
        (fun _ => .error exExn)).2.1,
        evt.event_type = .task_error ∧ evt.error = some (exExn.typeName, exExn.message) :=
  (execute_error_propagation "t" "c" "task" .nil (fun _ => "u")
      (.ok ()) (.error exExn) (.ok DynamicPlannerWorkflow.emptyOptimization)
      (fun _ => .error exExn) exExn).1
    (Or.inr (Or.inl ⟨rfl, rfl⟩))

/-- Looking up the key just set yields the new value. -/
theorem alistGet_alistSet_self {α : Type} (l : List (String × α)) (k : String)
    (v : α) : alistGet (alistSet l k v) k = some v := by
  induction l with
  | nil => simp [alistSet, alistGet]
  | cons kv tl ih =>
    obtain ⟨k₀, v₀⟩ := kv
    by_cases h : k₀ = k
    · simp [alistSet, h, alistGet]
    · simp [alistSet, h, alistGet, ih]

/-- Setting one key leaves lookups of other keys unchanged. -/
theorem alistGet_alistSet_ne {α : Type} (l : List (String × α)) (k k' : String)
    (v : α) (h : k' ≠ k) : alistGet (alistSet l k v) k' = alistGet l k' := by
  have h' : k ≠ k' := Ne.symm h
  induction l with
  | nil => simp [alistSet, alistGet, h']
  | cons kv tl ih =>
    obtain ⟨k₀, v₀⟩ := kv
    by_cases h₀ : k₀ = k
    · subst h₀
      simp [alistSet, alistGet, h']
    · simp [alistSet, h₀, alistGet, ih]

/-- A successful lookup exhibits a member entry. -/
theorem alistGet_mem {α : Type} {l : List (String × α)} {k : String} {v : α}
    (h : alistGet l k = some v) : (k, v) ∈ l := by
  induction l with
  | nil => simp [alistGet] at h
  | cons kv tl ih =>
    obtain ⟨k₀, v₀⟩ := kv
    by_cases h₀ : k₀ = k
    · subst h₀
      simp [alistGet] at h
      simp [h]
    · simp [alistGet, h₀] at h
      exact List.mem_cons_of_mem _ (ih h)

/-- A lookup misses exactly when the key is absent from the key list. -/
theorem alistGet_eq_none_iff {α : Type} (l : List (String × α)) (k : String) :
    alistGet l k = none ↔ k ∉ l.map Prod.fst := by
  induction l with
  | nil => simp [alistGet]
  | cons kv tl ih =>
    obtain ⟨k₀, v₀⟩ := kv
    by_cases h₀ : k₀ = k
    · subst h₀
      simp [alistGet]
    · simp [alistGet, h₀, ih, Ne.symm h₀]

/-- Every entry after a set is the new pair or an original entry. -/
theorem mem_alistSet {α : Type} {l : List (String × α)} {k : String} {v : α} :
    ∀ e ∈ alistSet l k v, e = (k, v) ∨ e ∈ l := by
  induction l with
  | nil => simp [alistSet]
  | cons kv tl ih =>
    obtain ⟨k₀, v₀⟩ := kv
    intro e he
    by_cases h₀ : k₀ = k
    · simp [alistSet, h₀] at he
      rcases he with he | he
      · exact Or.inl (by simp [he])
      · exact Or.inr (List.mem_cons_of_mem _ he)
    · simp only [alistSet, if_neg h₀, List.mem_cons] at he
      rcases he with he | he
      · exact Or.inr (by simp [he])
      · rcases ih e he with hh | hh
        · exact Or.inl hh
        · exact Or.inr (List.mem_cons_of_mem _ hh)

/-- The key list after a set: unchanged when the key was present, else
extended by the key. -/
theorem keys_alistSet {α : Type} (l : List (String × α)) (k : String) (v : α) :
    (alistSet l k v).map Prod.fst =
      if k ∈ l.map Prod.fst then l.map Prod.fst else l.map Prod.fst ++ [k] := by
  induction l with
  | nil => simp [alistSet]
  | cons kv tl ih =>
    obtain ⟨k₀, v₀⟩ := kv
    by_cases h₀ : k₀ = k
    · subst h₀
      simp [alistSet]
    · by_cases hmem : k ∈ tl.map Prod.fst
      · simp [alistSet, h₀, ih, hmem, Ne.symm h₀]
      · simp [alistSet, h₀, ih, hmem, Ne.symm h₀]

/-- Filtering on a Boolean key predicate does not disturb lookups of
keys the predicate keeps. -/
theorem alistGet_filter_keyPred_true {α : Type} (l : List (String × α))
    (q : String → Bool) (k : String) (h : q k = true) :
    alistGet (l.filter (fun kv => q kv.1)) k = alistGet l k := by
  induction l with
  | nil => simp
  | cons kv tl ih =>
    obtain ⟨k₀, v₀⟩ := kv
    cases hq : q k₀ with
    | true => simp [List.filter_cons, hq, alistGet, ih]
    | false =>
      have hck : k₀ ≠ k := by
        intro hh
        rw [hh, h] at hq
        exact absurd hq (by simp)
      simp [List.filter_cons, hq, alistGet, hck, ih]

/-- Filtering on a Boolean key predicate erases every entry whose key
the predicate rejects. -/
theorem alistGet_filter_keyPred_false {α : Type} (l : List (String × α))
    (q : String → Bool) (k : String) (h : q k = false) :
    alistGet (l.filter (fun kv => q kv.1)) k = none := by
  induction l with
  | nil => simp [alistGet]
  | cons kv tl ih =>
    obtain ⟨k₀, v₀⟩ := kv
    cases hq : q k₀ with
    | true =>
      have hck : k₀ ≠ k := by
        intro hh
        rw [hh, h] at hq
        exact absurd hq (by simp)
      simp [List.filter_cons, hq, alistGet, hck, ih]
    | false => simp [List.filter_cons, hq, ih]

/-- In a dict with nodup keys, two entries with the same key coincide. -/
theorem nodup_keys_eq {α : Type} {l : List (String × α)}
    (h : (l.map Prod.fst).Nodup) {k : String} {a b : α}
    (ha : (k, a) ∈ l) (hb : (k, b) ∈ l) : a = b := by
  induction l with
  | nil => simp at ha
  | cons kv tl ih =>
    obtain ⟨k₀, v₀⟩ := kv
    simp only [List.map_cons, List.nodup_cons] at h
    rcases List.mem_cons.mp ha with ha' | ha' <;>
      rcases List.mem_cons.mp hb with hb' | hb'
    · rw [Prod.mk.injEq] at ha' hb'
      rw [ha'.2, hb'.2]
    · exfalso
      apply h.1
      rw [Prod.mk.injEq] at ha'
      rw [← ha'.1]
      exact List.mem_map_of_mem Prod.fst hb'
    · exfalso
      apply h.1
      rw [Prod.mk.injEq] at hb'
      rw [← hb'.1]
      exact List.mem_map_of_mem Prod.fst ha'
    · exact ih h.2 ha' hb'

/-- Cleanup-shaped filters keep lookups of keys outside the evicted key
list. -/
theorem alistGet_filter_notin_keys {α : Type} (l : List (String × α))
    (ks : List String) (k : String) (h : ks.contains k = false) :
    alistGet (l.filter (fun kv => !(ks.contains kv.1))) k = alistGet l k :=
  alistGet_filter_keyPred_true l (fun s => !(ks.contains s)) k (by simpa using h)

/-- Cleanup-shaped filters erase all entries with an evicted key. -/
theorem alistGet_filter_in_keys {α : Type} (l : List (String × α))
    (ks : List String) (k : String) (h : ks.contains k = true) :
    alistGet (l.filter (fun kv => !(ks.contains kv.1))) k = none :=
  alistGet_filter_keyPred_false l (fun s => !(ks.contains s)) k (by simpa using h)

/-- C9: after set(key, value, ttl) with a positive ttl at time now, the
key exists immediately; from any time at or past the stored expiry
now + ttl, the sweep run by every subsequent operation evicts the key:
get returns None, exists is False, delete finds nothing and list_keys
omits the key. -/
theorem state_store_ttl_expiry (st : StoreState) (now : Nat) (key : String)
    (v : PValue) (ttl : Nat) (h : 0 < ttl) :
    (InMemoryStateStore.exists_key
        (InMemoryStateStore.set st now key v (some ttl)).2 now key).1 = true
    ∧ ∀ t₂, now + ttl ≤ t₂ →
        (InMemoryStateStore.get
            (InMemoryStateStore.set st now key v (some ttl)).2 t₂ key).1 = none
        ∧ (InMemoryStateStore.exists_key
            (InMemoryStateStore.set st now key v (some ttl)).2 t₂ key).1 = false
        ∧ (InMemoryStateStore.delete
            (InMemoryStateStore.set st now key v (some ttl)).2 t₂ key).1 = false
        ∧ key ∉ (InMemoryStateStore.list_keys
            (InMemoryStateStore.set st now key v (some ttl)).2 t₂ none).1 := by
  set st₁ := (InMemoryStateStore.set st now key v (some ttl)).2 with hst₁
  have hstore : st₁.store =
      alistSet (InMemoryStateStore.cleanup_expired st now).store key v := rfl
  have hexp : st₁.expiry =
      alistSet (InMemoryStateStore.cleanup_expired st now).expiry key (now + ttl) := rfl
  have hgtnow : ∀ kv ∈ st₁.expiry, now < kv.2 := by
    intro kv hkv
    rw [hexp] at hkv
    rcases mem_alistSet kv hkv with he | he
    · rw [he]
      omega
    · have := (List.mem_filter.mp he).2
      simp at this
      omega
  constructor
  · have hfilt : st₁.expiry.filter (fun kv => decide (kv.2 ≤ now)) = [] := by
      apply List.filter_eq_nil_iff.mpr
      intro kv hkv
      have := hgtnow kv hkv
      simp
      omega
    show (alistGet (InMemoryStateStore.cleanup_expired st₁ now).store key).isSome = true
    unfold InMemoryStateStore.cleanup_expired
    simp only [hfilt, List.map_nil]
    rw [alistGet_filter_notin_keys _ [] key rfl, hstore, alistGet_alistSet_self]
    rfl
  · intro t₂ ht
    have hmemexp : (key, now + ttl) ∈ st₁.expiry := by
      apply alistGet_mem
      rw [hexp]
      exact alistGet_alistSet_self _ _ _
    have hkeymem : key ∈
        ((st₁.expiry.filter (fun kv => decide (kv.2 ≤ t₂))).map Prod.fst) := by
      have hmf : (key, now + ttl) ∈ st₁.expiry.filter (fun kv => decide (kv.2 ≤ t₂)) :=
        List.mem_filter.mpr ⟨hmemexp, by simp; omega⟩
      exact List.mem_map_of_mem Prod.fst hmf
    have hcont : ((st₁.expiry.filter (fun kv => decide (kv.2 ≤ t₂))).map
        Prod.fst).contains key = true := by simpa using hkeymem
    have hnone : alistGet (InMemoryStateStore.cleanup_expired st₁ t₂).store key = none := by
      unfold InMemoryStateStore.cleanup_expired
      exact alistGet_filter_in_keys _ _ _ hcont
    refine ⟨hnone, ?_, ?_, ?_⟩
    · show (alistGet (InMemoryStateStore.cleanup_expired st₁ t₂).store key).isSome = false
      rw [hnone]
      rfl
    · simp only [InMemoryStateStore.delete, hnone]
      rfl
    · show key ∉ (InMemoryStateStore.cleanup_expired st₁ t₂).store.map Prod.fst
      exact (alistGet_eq_none_iff _ _).mp hnone

/-- Witness for C9 on the empty store: set with ttl 1 at time 0, the key
exists at time 0 and get at time 1 yields None. -/
theorem state_store_ttl_expiry_witness :
    (InMemoryStateStore.exists_key
        (InMemoryStateStore.set ⟨[], []⟩ 0 "k" (.pystr "x") (some 1)).2 0 "k").1 = true
    ∧ (InMemoryStateStore.get
        (InMemoryStateStore.set ⟨[], []⟩ 0 "k" (.pystr "x") (some 1)).2 1 "k").1 = none :=
  ⟨(state_store_ttl_expiry ⟨[], []⟩ 0 "k" (.pystr "x") 1 (by norm_num)).1,
   ((state_store_ttl_expiry ⟨[], []⟩ 0 "k" (.pystr "x") 1 (by norm_num)).2 1
      (by norm_num)).1⟩

/-- Python dict.pop(k) removes exactly the entries keyed k. -/
theorem alistGet_alistRemove_self {α : Type} (l : List (String × α)) (k : String) :
    alistGet (alistRemove l k) k = none :=
  alistGet_filter_keyPred_false l (fun s => !(s == k)) k (by simp)

/-- dict.pop(k) leaves other lookups unchanged. -/
theorem alistGet_alistRemove_ne {α : Type} (l : List (String × α)) (k k' : String)
    (h : k' ≠ k) : alistGet (alistRemove l k) k' = alistGet l k' :=
  alistGet_filter_keyPred_true l (fun s => !(s == k)) k' (by simp [h])

/-- Filtering a dict keeps its keys unique. -/
theorem nodup_keys_filter {α : Type} (l : List (String × α)) (p : String × α → Bool)
    (h : (l.map Prod.fst).Nodup) : ((l.filter p).map Prod.fst).Nodup :=
  h.sublist ((List.filter_sublist l).map Prod.fst)

/-- Setting a key preserves the presence of every stored key. -/
theorem isSome_alistGet_alistSet {α : Type} (l : List (String × α))
    (k' k : String) (v : α) (h : (alistGet l k').isSome = true) :
    (alistGet (alistSet l k v) k').isSome = true := by
  by_cases hk : k' = k
  · subst hk
    rw [alistGet_alistSet_self]
    rfl
  · rw [alistGet_alistSet_ne l k k' v hk]
    exact h

/-- Setting a key keeps dict keys unique. -/
theorem nodup_keys_alistSet {α : Type} (l : List (String × α)) (k : String) (v : α)
    (h : (l.map Prod.fst).Nodup) : ((alistSet l k v).map Prod.fst).Nodup := by
  rw [keys_alistSet]
  by_cases hm : k ∈ l.map Prod.fst
  · simp [hm, h]
  · simp [List.nodup_append, h, hm]

/-- The lazy expiry sweep preserves the store invariant. -/
theorem storeInv_cleanup (st : StoreState) (now : Nat) (h : storeInv st = true) :
    storeInv (InMemoryStateStore.cleanup_expired st now) = true := by
  simp only [storeInv, storeWF, expiryCovered, Bool.and_eq_true, decide_eq_true_eq,
    List.all_eq_true] at h ⊢
  obtain ⟨⟨hnds, hnde⟩, hcov⟩ := h
  unfold InMemoryStateStore.cleanup_expired
  refine ⟨⟨nodup_keys_filter _ _ hnds, nodup_keys_filter _ _ hnde⟩, ?_⟩
  intro kv hkv
  have hmem := (List.mem_filter.mp hkv).1
  have hgt : ¬ (kv.2 ≤ now) := by simpa using (List.mem_filter.mp hkv).2
  have hnotin : kv.1 ∉ (st.expiry.filter (fun kv => decide (kv.2 ≤ now))).map Prod.fst := by
    intro hin
    obtain ⟨kv', hkv', hfst⟩ := List.mem_map.mp hin
    have h₁ := (List.mem_filter.mp hkv').1
    have h₂ : kv'.2 ≤ now := by simpa using (List.mem_filter.mp hkv').2
    have ha : (kv.1, kv'.2) ∈ st.expiry := by
      rw [← hfst]
      simpa using h₁
    have hb : (kv.1, kv.2) ∈ st.expiry := by simpa using hmem
    have : kv'.2 = kv.2 := nodup_keys_eq hnde ha hb
    omega
  have hnc : ((st.expiry.filter (fun kv => decide (kv.2 ≤ now))).map
      Prod.fst).contains kv.1 = false := by simpa using hnotin
  rw [alistGet_filter_notin_keys _ _ _ hnc]
  exact hcov kv hmem

/-- C10: every state-store operation preserves the invariant that each
key with a recorded expiry is present in the value dict (assuming the
Python-dict representation invariant of unique keys, which the
operations also preserve); and set without a ttl removes any previously
recorded expiry for the key, so the overwritten key no longer expires. -/
theorem state_store_invariant_preserved (st : StoreState) (now : Nat)
    (key : String) (v : PValue) (ttl : Option Nat) (pat : Option String)
    (h : storeInv st = true) :
    storeInv (InMemoryStateStore.get st now key).2 = true
    ∧ storeInv (InMemoryStateStore.set st now key v ttl).2 = true
    ∧ storeInv (InMemoryStateStore.delete st now key).2 = true
    ∧ storeInv (InMemoryStateStore.exists_key st now key).2 = true
    ∧ storeInv (InMemoryStateStore.list_keys st now pat).2 = true
    ∧ storeInv (InMemoryStateStore.clear st now).2 = true
    ∧ alistGet (InMemoryStateStore.set st now key v none).2.expiry key = none := by
  have hclean := storeInv_cleanup st now h
  have hparts := hclean
  simp only [storeInv, storeWF, expiryCovered, Bool.and_eq_true, decide_eq_true_eq,
    List.all_eq_true] at hparts
  obtain ⟨⟨hnds, hnde⟩, hcov⟩ := hparts
  refine ⟨hclean, ?_, ?_, hclean, hclean, ?_, ?_⟩
  · cases ttl with
    | some t =>
      show storeInv
        ⟨alistSet (InMemoryStateStore.cleanup_expired st now).store key v,
         alistSet (InMemoryStateStore.cleanup_expired st now).expiry key (now + t)⟩ = true
      simp only [storeInv, storeWF, expiryCovered, Bool.and_eq_true,
        decide_eq_true_eq, List.all_eq_true]
      refine ⟨⟨nodup_keys_alistSet _ _ _ hnds, nodup_keys_alistSet _ _ _ hnde⟩, ?_⟩
      intro kv hkv
      rcases mem_alistSet kv hkv with he | he
      · simp [he, alistGet_alistSet_self]
      · exact isSome_alistGet_alistSet _ _ _ _ (hcov kv he)
    | none =>
      show storeInv
        ⟨alistSet (InMemoryStateStore.cleanup_expired st now).store key v,
         alistRemove (InMemoryStateStore.cleanup_expired st now).expiry key⟩ = true
      simp only [storeInv, storeWF, expiryCovered, Bool.and_eq_true,
        decide_eq_true_eq, List.all_eq_true]
      refine ⟨⟨nodup_keys_alistSet _ _ _ hnds, ?_⟩, ?_⟩
      · unfold alistRemove
        exact nodup_keys_filter _ _ hnde
      · intro kv hkv
        have hmem : kv ∈ (InMemoryStateStore.cleanup_expired st now).expiry :=
          (List.mem_filter.mp hkv).1
        exact isSome_alistGet_alistSet _ _ _ _ (hcov kv hmem)
  · unfold InMemoryStateStore.delete
    dsimp only
    split
    · simp only [storeInv, storeWF, expiryCovered, Bool.and_eq_true,
        decide_eq_true_eq, List.all_eq_true]
      refine ⟨⟨?_, ?_⟩, ?_⟩
      · unfold alistRemove
        exact nodup_keys_filter _ _ hnds
      · unfold alistRemove
        exact nodup_keys_filter _ _ hnde
      · intro kv hkv
        have hne : kv.1 ≠ key := by simpa using (List.mem_filter.mp hkv).2
        have hmem := (List.mem_filter.mp hkv).1
        rw [alistGet_alistRemove_ne _ _ _ hne]
        exact hcov kv hmem
    · exact hclean
  · show storeInv (⟨[], []⟩ : StoreState) = true
    decide
  · show alistGet
      (alistRemove (InMemoryStateStore.cleanup_expired st now).expiry key) key = none
    exact alistGet_alistRemove_self _ _

/-- Witness for C10 at a concrete invariant-satisfying store. -/
theorem state_store_invariant_preserved_witness :
    storeInv (InMemoryStateStore.get exInvStore 0 "b").2 = true
    ∧ storeInv (InMemoryStateStore.set exInvStore 0 "b" (.pystr "y") (some 7)).2 = true
    ∧ storeInv (InMemoryStateStore.delete exInvStore 0 "b").2 = true
    ∧ storeInv (InMemoryStateStore.exists_key exInvStore 0 "b").2 = true
    ∧ storeInv (InMemoryStateStore.list_keys exInvStore 0 (some "a*")).2 = true
    ∧ storeInv (InMemoryStateStore.clear exInvStore 0).2 = true
    ∧ alistGet (InMemoryStateStore.set exInvStore 0 "b" (.pystr "y") none).2.expiry "b" =
        none :=
  state_store_invariant_preserved exInvStore 0 "b" (.pystr "y") (some 7) (some "a*")
    (by decide)
